import Mathlib

/-!
Verification of the GuitarTutor music-theory core: a shallow embedding of
`src/lib/theory/pitch.ts`, `scales.ts`, `chords.ts`, `roman.ts`,
`src/lib/theory/caged.ts` and `src/lib/voicings/index.ts`, followed by
theorems about the embedded functions.

Conventions of the embedding:
- JavaScript strings are handled through `String.data : List Char`; the
  regular expressions of the source are unfolded into explicit character
  matching (each regex is anchored at the start, so this is plain prefix
  parsing).  Case-insensitive (`/i`) full matches are embedded as equality
  of ASCII-lowercased strings, with the non-ASCII alternatives (`Δ`, `ø`)
  listed explicitly.
- JavaScript `%` truncates toward zero, so it is embedded as `Int.tmod`
  where an operand could be negative; where the source guarantees a
  non-negative operand (the ubiquitous `(x + 12) % 12` on small values)
  the result agrees with `Nat.mod`.
- `null`-returning functions become `Option`; the tagged `ParseResult`
  union becomes an inductive with an `ok` and an `err` constructor.
-/

namespace GuitarTutor

/-! ## Pitch model (`src/lib/theory/pitch.ts`) -/

/-- Lookup table `LETTER_TO_PC` (natural-letter pitch classes). -/
def LETTER_TO_PC (c : Char) : Option Nat :=
  match c with
  | 'C' => some 0
  | 'D' => some 2
  | 'E' => some 4
  | 'F' => some 5
  | 'G' => some 7
  | 'A' => some 9
  | 'B' => some 11
  | _ => none

def SHARP_NAMES : List String :=
  ["C", "C#", "D", "D#", "E", "F"] ++ ["F#", "G", "G#", "A", "A#", "B"]

def FLAT_NAMES : List String :=
  ["C", "Db", "D", "Eb", "E", "F", "Gb", "G", "Ab", "A", "Bb", "B"]

/-- Embeds `normalizeNoteName`: `input.trim().replace(/\s+/g, "")`, i.e. every
whitespace character is removed (the trim is subsumed by the global
replacement). -/
def normalizeNoteName (input : String) : String :=
  String.mk (input.data.filter (fun c => !c.isWhitespace))

/-- The character class `[A-Ga-g]` of the `toPitchClass` regex. -/
def isNoteLetter (c : Char) : Bool :=
  ['A', 'B', 'C', 'D', 'E', 'F', 'G', 'a', 'b', 'c', 'd', 'e', 'f', 'g'].contains c

/-- The accidental adjustment: `+1` for a leading `#`, `-1` for a leading
`b` (the regex group `([#b]?)` captures at most one such character right
after the letter). -/
def accDelta (rest : List Char) : Int :=
  match rest with
  | [] => 0
  | a :: _ => if a = '#' then 1 else if a = 'b' then -1 else 0

/-- The leading accidental captured by `([#b]?)`, as a character list. -/
def accidentalOf (rest : List Char) : List Char :=
  match rest with
  | [] => []
  | a :: _ => if a = '#' then ['#'] else if a = 'b' then ['b'] else []

/-- Core of `toPitchClass` on the cleaned character list: the regex
`^([A-Ga-g])([#b]?)` matches a prefix (everything after the optional
accidental is ignored), the letter is uppercased and looked up, the
accidental applied, and the result reduced into `[0,11]`. -/
def parseNoteChars (l : List Char) : Option Nat :=
  match l with
  | [] => none
  | c :: rest =>
    if isNoteLetter c then
      match LETTER_TO_PC c.toUpper with
      | some base => some ((((base : Int) + accDelta rest + 12).tmod 12).toNat)
      | none => none
    else none

/-- Embeds `toPitchClass`. -/
def toPitchClass (note : String) : Option Nat :=
  parseNoteChars (normalizeNoteName note).data

/-- Embeds `formatPitchClass`: index `((pc % 12) + 12) % 12` into the chosen
spelling table. -/
def formatPitchClass (pc : Int) (preferFlats : Bool) : String :=
  let index := ((pc.tmod 12) + 12).tmod 12
  (if preferFlats then FLAT_NAMES else SHARP_NAMES).getD index.toNat ""

/-! ## Scales (`src/lib/theory/scales.ts`) -/

def MAJOR_SCALE : List Nat := [0, 2, 4, 5, 7, 9, 11]

def NATURAL_MINOR_SCALE : List Nat := [0, 2, 3, 5, 7, 8, 10]

/-- The `"major" | "minor"` mode tag. -/
inductive KeyType where
  | major
  | minor
deriving DecidableEq

/-- Embeds `buildScale`. -/
def buildScale (root : Nat) (t : KeyType) : List Nat :=
  (match t with
   | .major => MAJOR_SCALE
   | .minor => NATURAL_MINOR_SCALE).map (fun interval => (root + interval) % 12)

/-! ## Chord model (`src/lib/theory/chords.ts`) -/

/-- The closed `ChordQuality` union (the source's string keys `"6"` and
`"9"` are spelled `six` and `nine`). -/
inductive ChordQuality where
  | maj
  | min
  | dim
  | aug
  | sus2
  | sus4
  | dom7
  | maj7
  | min7
  | m7b5
  | add9
  | six
  | nine
deriving DecidableEq

/-- Embeds `CHORD_QUALITY_INTERVALS`. -/
def CHORD_QUALITY_INTERVALS : ChordQuality → List Nat
  | .maj => [0, 4, 7]
  | .min => [0, 3, 7]
  | .dim => [0, 3, 6]
  | .aug => [0, 4, 8]
  | .sus2 => [0, 2, 7]
  | .sus4 => [0, 5, 7]
  | .dom7 => [0, 4, 7, 10]
  | .maj7 => [0, 4, 7, 11]
  | .min7 => [0, 3, 7, 10]
  | .m7b5 => [0, 3, 6, 10]
  | .add9 => [0, 4, 7, 14]
  | .six => [0, 4, 7, 9]
  | .nine => [0, 4, 7, 10, 14]

/-- Embeds `ResolvedChord`. -/
structure ResolvedChord where
  root : Nat
  quality : ChordQuality
  intervals : List Nat
deriving DecidableEq

/-- Embeds `ParseResult`: `{ok: true; chord}` or `{ok: false; error}`. -/
inductive ParseResult where
  | ok (chord : ResolvedChord)
  | err (error : String)
deriving DecidableEq

/-- Embeds `chordToneSet`. -/
def chordToneSet (chord : ResolvedChord) : List Nat :=
  chord.intervals.map (fun interval => (chord.root + interval) % 12)

/-- ASCII lowercasing of a string, used to embed `/i` full matches. -/
def lowerStr (s : String) : String :=
  String.mk (s.data.map Char.toLower)

/-- Embeds `LITERAL_SUFFIXES`: the ordered pattern table.  Each anchored
case-insensitive regex `/^(?:a|b|…)$/i` becomes a Boolean predicate that
compares the lowercased suffix against the lowercased alternatives (the
non-ASCII letters `Δ`/`ø`, which Lean's ASCII `toLower` leaves alone, are
listed in both cases explicitly). -/
def LITERAL_SUFFIXES : List ((String → Bool) × ChordQuality) :=
  [ (fun s => lowerStr s == "maj7" || lowerStr s == "m7" || s == "Δ7" || s == "δ7", .maj7),
    (fun s => lowerStr s == "m7b5" || s == "ø" || s == "Ø", .m7b5),
    (fun s => lowerStr s == "min7" || lowerStr s == "m7", .min7),
    (fun s => s == "7", .dom7),
    (fun s => lowerStr s == "min" || lowerStr s == "m" || s == "-", .min),
    (fun s => lowerStr s == "dim" || s == "°", .dim),
    (fun s => lowerStr s == "aug" || s == "+", .aug),
    (fun s => lowerStr s == "sus2", .sus2),
    (fun s => lowerStr s == "sus4", .sus4),
    (fun s => lowerStr s == "add9", .add9),
    (fun s => s == "6", .six),
    (fun s => s == "9", .nine),
    (fun s => s == "", .maj) ]

/-- JavaScript `String.prototype.trim`: whitespace removed from both ends. -/
def trimChars (l : List Char) : List Char :=
  ((l.dropWhile Char.isWhitespace).reverse.dropWhile Char.isWhitespace).reverse

/-- Embeds `parseLiteralChord`: regex `^([A-Ga-g])([#b]?)(.*)$` on the trimmed
input, root name re-parsed through `toPitchClass`, suffix matched against
`LITERAL_SUFFIXES` with `Array.prototype.find` (first match wins). -/
def parseLiteralChord (input : String) : ParseResult :=
  match trimChars input.data with
  | [] => .err "Invalid chord root."
  | c :: rest =>
    if isNoteLetter c then
      let rootName := String.mk (c.toUpper :: accidentalOf rest)
      let sufRaw :=
        match rest with
        | '#' :: r => r
        | 'b' :: r => r
        | r => r
      let suffix := String.mk (trimChars sufRaw)
      match toPitchClass rootName with
      | none => .err "Invalid chord root."
      | some root =>
        match LITERAL_SUFFIXES.find? (fun entry => entry.1 suffix) with
        | none =>
          .err (String.append "Unsupported chord suffix: "
            (if suffix = "" then "(none)" else suffix))
        | some entry => .ok ⟨root, entry.2, CHORD_QUALITY_INTERVALS entry.2⟩
    else .err "Invalid chord root."

/-! ## Roman numerals (`src/lib/theory/roman.ts`) -/

/-- Lookup `ROMAN_DEGREES` on the uppercased numeral. -/
def ROMAN_DEGREES (roman : List Char) : Option Nat :=
  match roman with
  | ['I'] => some 1
  | ['I', 'I'] => some 2
  | ['I', 'I', 'I'] => some 3
  | ['I', 'V'] => some 4
  | ['V'] => some 5
  | ['V', 'I'] => some 6
  | ['V', 'I', 'I'] => some 7
  | _ => none

/-- The character class `[ivIV]`. -/
def isRomanChar (c : Char) : Bool :=
  c = 'i' || c = 'v' || c = 'I' || c = 'V'

def toUpperChars (l : List Char) : List Char := l.map Char.toUpper

def toLowerChars (l : List Char) : List Char := l.map Char.toLower

/-- Embeds `RomanParts`. -/
structure RomanParts where
  accidental : Int
  degree : Nat
  isLower : Bool
  suffix : List Char
deriving DecidableEq

/-- Embeds `parseRomanPart`: regex `^([b#]?)([ivIV]+)(.*)$` — optional accidental,
then a maximal nonempty run of roman characters (greedy `+`; since `b`/`#`
are not roman characters the greedy accidental never needs backtracking),
then the rest as suffix.  The run, uppercased, must be a degree I..VII. -/
def parseRomanPart (input : List Char) : Option RomanParts :=
  let acc : Int :=
    match input with
    | 'b' :: _ => -1
    | '#' :: _ => 1
    | _ => 0
  let afterAcc :=
    match input with
    | 'b' :: r => r
    | '#' :: r => r
    | r => r
  let romanChars := afterAcc.takeWhile isRomanChar
  let suffixChars := afterAcc.dropWhile isRomanChar
  if romanChars = [] then none
  else
    match ROMAN_DEGREES (toUpperChars romanChars) with
    | none => none
    | some degree =>
      some ⟨acc, degree, romanChars == toLowerChars romanChars, suffixChars⟩

/-- Substring test for `dim` (on an already-lowercased list). -/
def containsDim : List Char → Bool
  | 'd' :: 'i' :: 'm' :: _ => true
  | _ :: rest => containsDim rest
  | [] => false

/-- Substring test for `aug` (on an already-lowercased list). -/
def containsAug : List Char → Bool
  | 'a' :: 'u' :: 'g' :: _ => true
  | _ :: rest => containsAug rest
  | [] => false

/-- Embeds `qualityFromRoman`: the unanchored tests `/ø/`, `/°|dim|o/i`,
`/\+|aug/i` on the suffix, falling back to minor/major by numeral case.
The source's return type admits `null` but the body never produces it. -/
def qualityFromRoman (parts : RomanParts) : Option ChordQuality :=
  let suffix := parts.suffix
  if suffix.contains 'ø' then some .m7b5
  else if suffix.contains '°' || (toLowerChars suffix).contains 'o'
      || containsDim (toLowerChars suffix) then some .dim
  else if suffix.contains '+' || containsAug (toLowerChars suffix) then some .aug
  else some (if parts.isLower then .min else .maj)

/-- JavaScript `split("/")` (no limit): the list of `/`-separated chunks. -/
def splitOnSlash : List Char → List (List Char)
  | [] => [[]]
  | '/' :: rest => [] :: splitOnSlash rest
  | c :: rest =>
    match splitOnSlash rest with
    | [] => [[c]]
    | p :: ps => (c :: p) :: ps

/-- Computes `keyScale[degree - 1]` plus accidental, reduced into `[0,11]`. -/
def resolveDegree (keyScale : List Nat) (degree : Nat) (accidental : Int) : Nat :=
  let base := keyScale.getD (degree - 1) 0
  (((base : Int) + accidental + 12).tmod 12).toNat

/-- Embeds `pieces[0].replace(/^[b#]?/i, "")`: the `/i` flag makes the optional
leading accidental class match `b`, `B` or `#`. -/
def stripAccidentalCI (s : List Char) : List Char :=
  match s with
  | 'b' :: r => r
  | 'B' :: r => r
  | '#' :: r => r
  | _ => s

/-- Embeds `String.prototype.startsWith` on character lists. -/
def startsWithChars : List Char → List Char → Bool
  | [], _ => true
  | _ :: _, [] => false
  | p :: ps, c :: cs => p = c && startsWithChars ps cs

/-- Computes the chord root of `parseRomanNumeral` (source lines 79—98):
with a secondary slash the target degree is resolved and the left-hand
numeral must begin with `V` (then `+7`) or — unreachably, since `VII` also
begins with `V` — with `VII` (then `+11`); without a slash the main degree
is resolved directly.  Failure carries the error string. -/
def resolveRoot (pieces : List (List Char)) (keyScale : List Nat)
    (main : RomanParts) : Except String Nat :=
  if pieces.length = 2 then
    match parseRomanPart (pieces.getD 1 []) with
    | none => .error "Invalid secondary target."
    | some target =>
      let targetRoot := resolveDegree keyScale target.degree target.accidental
      let baseRoman := toUpperChars (stripAccidentalCI (pieces.headD []))
      if startsWithChars ['V'] baseRoman then
        .ok ((targetRoot + 7) % 12)
      else if startsWithChars ['V', 'I', 'I'] baseRoman then
        .ok ((targetRoot + 11) % 12)
      else .error "Only V/x or VII°/x supported in MVP."
  else .ok (resolveDegree keyScale main.degree main.accidental)

/-- Embeds `parseRomanNumeral`. -/
def parseRomanNumeral (input : String) (keyTonic : String) (keyType : KeyType) :
    ParseResult :=
  let trimmed := input.data.filter (fun c => !c.isWhitespace)
  if trimmed = [] then .err "Empty roman numeral."
  else
    let pieces := splitOnSlash trimmed
    if pieces.length > 2 then .err "Too many secondary dominants."
    else
      match parseRomanPart (pieces.headD []) with
      | none => .err "Invalid roman numeral."
      | some main =>
        match toPitchClass keyTonic with
        | none => .err "Invalid key tonic."
        | some keyRoot =>
          let keyScale := buildScale keyRoot keyType
          match qualityFromRoman main with
          | none => .err "Unsupported roman numeral quality."
          | some mainQuality =>
            match resolveRoot pieces keyScale main with
            | .error e => .err e
            | .ok root => .ok ⟨root, mainQuality, CHORD_QUALITY_INTERVALS mainQuality⟩

/-! ## CAGED regions (`src/lib/theory/caged.ts`) -/

inductive CagedRegionId where
  | C
  | A
  | G
  | E
  | D
deriving DecidableEq

structure CagedRegion where
  id : CagedRegionId
  label : String
  fretStart : Int
  fretEnd : Int
deriving DecidableEq

/-- Embeds `CagedTemplate` (fields: id, label, anchorFret, startOffset, endOffset). -/
structure CagedTemplate where
  id : CagedRegionId
  label : String
  anchorFret : Int
  startOffset : Int
  endOffset : Int
deriving DecidableEq

def C_MAJOR_TEMPLATES : List CagedTemplate :=
  [ ⟨.C, "C shape", 3, -3, 1⟩,
    ⟨.A, "A shape", 3, -1, 3⟩,
    ⟨.G, "G shape", 3, -1, 3⟩,
    ⟨.E, "E shape", 8, -1, 3⟩,
    ⟨.D, "D shape", 10, -2, 2⟩ ]

def A_MINOR_TEMPLATES : List CagedTemplate :=
  [ ⟨.A, "A shape", 0, 0, 3⟩,
    ⟨.G, "G shape", 5, -2, 2⟩,
    ⟨.E, "E shape", 5, -1, 3⟩,
    ⟨.D, "D shape", 10, -2, 2⟩,
    ⟨.C, "C shape", 12, -3, 1⟩ ]

/-- Embeds `clampWindow`: clamp `[fretStart, fretEnd]` into `[fmin, fmax]`,
`null` when nothing valid remains. -/
def clampWindow (fretStart fretEnd fmin fmax : Int) : Option (Int × Int) :=
  if min fmax fretEnd < fmin ∨ max fmin fretStart > fmax
      ∨ max fmin fretStart > min fmax fretEnd then none
  else some (max fmin fretStart, min fmax fretEnd)

/-- Embeds `chooseShift`: of the two candidate shifts `[diff, diff - 12]`, the
first whose clamped window overlap is strictly largest (`bestOverlap`
starts at `-1`, `bestShift` at `diff`). -/
def chooseShift (baseStart baseEnd diff fmin fmax : Int) : Int :=
  let step := fun (best : Int × Int) (shift : Int) =>
    match clampWindow (baseStart + shift) (baseEnd + shift) fmin fmax with
    | none => best
    | some w => if w.2 - w.1 > best.2 then (shift, w.2 - w.1) else best
  (([diff, diff - 12].foldl step (diff, -1))).1

/-- The per-template body of `getCagedRegionsForKey`'s `map` (the source
maps templates to `CagedRegion | null` and then filters out `null`). -/
def regionOfTemplate (diff fmin fmax : Int) (template : CagedTemplate) :
    Option CagedRegion :=
  let baseStart := template.anchorFret + template.startOffset
  let baseEnd := template.anchorFret + template.endOffset
  let shift := chooseShift baseStart baseEnd diff fmin fmax
  (clampWindow (baseStart + shift) (baseEnd + shift) fmin fmax).map
    (fun w => ⟨template.id, template.label, w.1, w.2⟩)

/-- Embeds `getCagedRegionsForKey`. -/
def getCagedRegionsForKey (keyTonicPc : Int) (keyType : KeyType)
    (fretMin fretMax : Int) : List CagedRegion :=
  let baseKeyPc : Int := match keyType with | .major => 0 | .minor => 9
  let diff := (keyTonicPc - baseKeyPc + 12).tmod 12
  let templates :=
    match keyType with
    | .major => C_MAJOR_TEMPLATES
    | .minor => A_MINOR_TEMPLATES
  templates.filterMap (regionOfTemplate diff fretMin fretMax)

/-! ## Voicings (`src/lib/voicings/index.ts`) -/

/-- The `baseRoot` letter union `"E" | "A" | "C" | "D" | "G"`. -/
inductive BaseRoot where
  | C
  | D
  | E
  | G
  | A
deriving DecidableEq

/-- Embeds `VoicingShape` (fields: id, name, quality, baseRoot, frets, movable);
a fret of `-1` is the muted-string sentinel. -/
structure VoicingShape where
  id : String
  name : String
  quality : ChordQuality
  baseRoot : BaseRoot
  frets : List Int
  movable : Bool
deriving DecidableEq

def VOICINGS : List VoicingShape :=
  [ ⟨"open-c-maj", "Open C", .maj, .C, [-1, 3, 2, 0, 1, 0], false⟩,
    ⟨"open-c-min", "Open Cm (alt)", .min, .C, [-1, 3, 1, 0, 1, 3], false⟩,
    ⟨"open-d-maj", "Open D", .maj, .D, [-1, -1, 0, 2, 3, 2], false⟩,
    ⟨"open-d-min", "Open Dm", .min, .D, [-1, -1, 0, 2, 3, 1], false⟩,
    ⟨"open-e-maj", "Open E", .maj, .E, [0, 2, 2, 1, 0, 0], false⟩,
    ⟨"open-e-min", "Open Em", .min, .E, [0, 2, 2, 0, 0, 0], false⟩,
    ⟨"open-g-maj", "Open G", .maj, .G, [3, 2, 0, 0, 0, 3], false⟩,
    ⟨"open-a-maj", "Open A", .maj, .A, [-1, 0, 2, 2, 2, 0], false⟩,
    ⟨"open-a-min", "Open Am", .min, .A, [-1, 0, 2, 2, 1, 0], false⟩,
    ⟨"e-shape-maj", "E-shape Maj", .maj, .E, [0, 2, 2, 1, 0, 0], true⟩,
    ⟨"e-shape-min", "E-shape Min", .min, .E, [0, 2, 2, 0, 0, 0], true⟩,
    ⟨"e-shape-dom7", "E-shape 7", .dom7, .E, [0, 2, 0, 1, 0, 0], true⟩,
    ⟨"e-shape-maj7", "E-shape Maj7", .maj7, .E, [0, 2, 1, 1, 0, 0], true⟩,
    ⟨"e-shape-min7", "E-shape Min7", .min7, .E, [0, 2, 0, 0, 0, 0], true⟩,
    ⟨"a-shape-maj", "A-shape Maj", .maj, .A, [-1, 0, 2, 2, 2, 0], true⟩,
    ⟨"a-shape-min", "A-shape Min", .min, .A, [-1, 0, 2, 2, 1, 0], true⟩,
    ⟨"a-shape-dom7", "A-shape 7", .dom7, .A, [-1, 0, 2, 0, 2, 0], true⟩,
    ⟨"a-shape-maj7", "A-shape Maj7", .maj7, .A, [-1, 0, 2, 1, 2, 0], true⟩,
    ⟨"a-shape-min7", "A-shape Min7", .min7, .A, [-1, 0, 2, 0, 1, 0], true⟩ ]

/-- Embeds `BASE_ROOT_PC`. -/
def BASE_ROOT_PC : BaseRoot → Int
  | .C => 0
  | .D => 2
  | .E => 4
  | .G => 7
  | .A => 9

/-- Embeds `resolveVoicingFrets`. -/
def resolveVoicingFrets (shape : VoicingShape) (targetRoot : Int) : List Int :=
  if shape.movable = false then shape.frets
  else
    let basePc := BASE_ROOT_PC shape.baseRoot
    let offset := (targetRoot - basePc + 12).tmod 12
    shape.frets.map (fun fret => if fret < 0 then -1 else fret + offset)

/-! ## Theorems -/

/-- Helper: a successful `clampWindow` yields a window inside
`[fmin, fmax]` with `start ≤ stop`. -/
theorem clampWindow_bounds {s e fmin fmax : Int} {w : Int × Int}
    (h : clampWindow s e fmin fmax = some w) :
    fmin ≤ w.1 ∧ w.1 ≤ w.2 ∧ w.2 ≤ fmax := by
  unfold clampWindow at h
  split at h
  · simp at h
  · rename_i hcond
    rw [Option.some.injEq] at h
    subst h
    dsimp only
    push_neg at hcond
    omega

/-- Helper: `qualityFromRoman` never returns `null` — every branch of its
body produces a quality. -/
theorem qualityFromRoman_isSome (parts : RomanParts) :
    (qualityFromRoman parts).isSome = true := by
  unfold qualityFromRoman
  dsimp only
  split_ifs <;> rfl

/-- Helper: `qualityFromRoman` never returns `null`, `Option` form. -/
theorem qualityFromRoman_ne_none (parts : RomanParts) :
    qualityFromRoman parts ≠ none := by
  intro h
  have hs := qualityFromRoman_isSome parts
  rw [h] at hs
  simp at hs

/-- Helper: the error strings `resolveRoot` can produce. -/
theorem resolveRoot_error_strings (pieces : List (List Char))
    (keyScale : List Nat) (main : RomanParts) (e : String)
    (h : resolveRoot pieces keyScale main = .error e) :
    e = "Invalid secondary target." ∨ e = "Only V/x or VII°/x supported in MVP." := by
  unfold resolveRoot at h
  split at h
  · split at h
    · exact Or.inl (Except.error.inj h).symm
    · dsimp only at h
      split at h
      · exact Except.noConfusion h
      · split at h
        · exact Except.noConfusion h
        · exact Or.inr (Except.error.inj h).symm
  · exact Except.noConfusion h

/-- Helper: `parseRomanNumeral` never produces the unsupported-quality
error — the branch guarding it requires `qualityFromRoman` to return
`null`, which never happens. -/
theorem parseRomanNumeral_no_unsupported_quality (input keyTonic : String)
    (t : KeyType) :
    parseRomanNumeral input keyTonic t ≠
      ParseResult.err "Unsupported roman numeral quality." := by
  intro h
  unfold parseRomanNumeral at h
  dsimp only at h
  split at h
  · exact absurd (ParseResult.err.inj h) (by decide)
  · split at h
    · exact absurd (ParseResult.err.inj h) (by decide)
    · split at h
      · exact absurd (ParseResult.err.inj h) (by decide)
      · split at h
        · exact absurd (ParseResult.err.inj h) (by decide)
        · split at h
          · exact qualityFromRoman_ne_none _ (by assumption)
          · split at h
            · have hstr := ParseResult.err.inj h
              subst hstr
              rcases resolveRoot_error_strings _ _ _ _ (by assumption) with h1 | h1 <;>
                exact absurd h1 (by decide)
            · exact ParseResult.noConfusion h

/-- C1: the claim asserts that a two-part numeral whose left side begins
with `VII` resolves to root `(target + 11) mod 12`.  The code cannot reach
its `VII` branch: `"VII".startsWith("V")` holds, so the `V` branch fires
first and yields `(target + 7) mod 12`.  For `parseRomanNumeral("vii°/V",
"C", "major")` the target (degree 5 of C major) is 7, the code returns
root `(7 + 7) % 12 = 2`, while the claimed root is `(7 + 11) % 12 = 6`. -/
theorem c1_vii_branch_shadowed :
    parseRomanNumeral "vii°/V" "C" KeyType.major =
      ParseResult.ok ⟨2, ChordQuality.dim, [0, 3, 6]⟩ ∧ (2 : Nat) ≠ (7 + 11) % 12 := by
  constructor
  · decide
  · decide

/-- C2: the claim asserts `parseLiteralChord("Cm7")` resolves quality
`min7`.  The first pattern of `LITERAL_SUFFIXES`, `/^(?:maj7|M7|Δ7)$/i`,
is case-insensitive, so the suffix `"m7"` already matches its `M7`
alternative and first-match-wins resolves `maj7`, never reaching the
dedicated `min7` row.  The code returns root 0 with quality `maj7`. -/
theorem c2_m7_matches_maj7_first :
    parseLiteralChord "Cm7" = ParseResult.ok ⟨0, ChordQuality.maj7, [0, 4, 7, 11]⟩ ∧
      ChordQuality.maj7 ≠ ChordQuality.min7 := by
  constructor
  · decide
  · decide

/-- C3 (counterexample): `parseRomanNumeral("bVII", "A", "minor")` succeeds
with root 6, not 7 as claimed: the natural-minor 7th degree of A is
already G = 7, and the leading flat lowers it to 6 (G♭). -/
theorem c3_counterexample :
    parseRomanNumeral "bVII" "A" KeyType.minor =
      ParseResult.ok ⟨6, ChordQuality.maj, [0, 4, 7]⟩ ∧ (6 : Nat) ≠ 7 := by
  constructor
  · decide
  · decide

/-- C3 (amended): `parseRomanNumeral("bVII", "A", "minor")` succeeds with
quality `maj` and root pitch class 6: the flat accidental is applied to
the natural-minor 7th degree `G = 7`, giving `G♭ = 6`. -/
theorem c3_bVII_a_minor :
    ∃ chord, parseRomanNumeral "bVII" "A" KeyType.minor = ParseResult.ok chord ∧
      chord.quality = ChordQuality.maj ∧ chord.root = 6 :=
  ⟨⟨6, ChordQuality.maj, [0, 4, 7]⟩, by decide, rfl, rfl⟩

/-- C4: `getCagedRegionsForKey(0, "major", 0, 15)` returns exactly the
five C-major reference templates, in order C, A, G, E, D, with their
unshifted windows `[0,4]`, `[2,6]`, `[2,6]`, `[7,11]`, `[8,12]`. -/
theorem c4_caged_c_major_reference :
    getCagedRegionsForKey 0 KeyType.major 0 15 =
      [⟨CagedRegionId.C, "C shape", 0, 4⟩,
       ⟨CagedRegionId.A, "A shape", 2, 6⟩,
       ⟨CagedRegionId.G, "G shape", 2, 6⟩,
       ⟨CagedRegionId.E, "E shape", 7, 11⟩,
       ⟨CagedRegionId.D, "D shape", 8, 12⟩] := by
  decide

/-- C8: for every pitch class and both spelling preferences, formatting
and re-parsing round-trips: `toPitchClass (formatPitchClass pc f) = pc`. -/
theorem c8_format_parse_roundtrip :
    ∀ (pc : Fin 12) (preferFlats : Bool),
      toPitchClass (formatPitchClass pc.val preferFlats) = some pc.val := by
  decide

/-- C9: for every quality of the fixed table and every root pitch class,
`chordToneSet` contains the root; and for root 0 with quality `9` it is
exactly `[0, 4, 7, 10, 2]` (the compound interval 14 reduced to 2). -/
theorem c9_chordToneSet_contains_root :
    (∀ (q : ChordQuality) (r : Fin 12),
        r.val ∈ chordToneSet ⟨r.val, q, CHORD_QUALITY_INTERVALS q⟩) ∧
      chordToneSet ⟨0, ChordQuality.nine, CHORD_QUALITY_INTERVALS ChordQuality.nine⟩ =
        [0, 4, 7, 10, 2] := by
  constructor
  · intro q
    cases q <;> decide
  · decide

/-- C5: every region returned by `getCagedRegionsForKey` has
`fretMin ≤ fretStart ≤ fretEnd ≤ fretMax` — templates whose clamped
window would be empty or out of bounds are omitted. -/
theorem c5_caged_windows_clamped (keyTonicPc : Int) (t : KeyType)
    (fretMin fretMax : Int) (r : CagedRegion)
    (hr : r ∈ getCagedRegionsForKey keyTonicPc t fretMin fretMax) :
    fretMin ≤ r.fretStart ∧ r.fretStart ≤ r.fretEnd ∧ r.fretEnd ≤ fretMax := by
  unfold getCagedRegionsForKey at hr
  rw [List.mem_filterMap] at hr
  obtain ⟨template, -, htm⟩ := hr
  unfold regionOfTemplate at htm
  dsimp only at htm
  rw [Option.map_eq_some'] at htm
  obtain ⟨w, hw, rfl⟩ := htm
  simpa using clampWindow_bounds hw

/-- C5 (witness): the C-shape region of C major on frets 0–15 is clamped
inside the bounds. -/
theorem c5_caged_windows_clamped_witness :
    (0 : Int) ≤ 0 ∧ (0 : Int) ≤ 4 ∧ (4 : Int) ≤ 15 :=
  c5_caged_windows_clamped 0 KeyType.major 0 15
    ⟨CagedRegionId.C, "C shape", 0, 4⟩ (by decide)

/-- C6 (counterexample): no input at all makes `parseRomanNumeral` fail
with the unsupported-quality error — the claim's existence assertion is
false. -/
theorem c6_counterexample :
    ¬ ∃ (input keyTonic : String) (t : KeyType),
        parseRomanNumeral input keyTonic t =
          ParseResult.err "Unsupported roman numeral quality." :=
  fun ⟨i, k, t, h⟩ => parseRomanNumeral_no_unsupported_quality i k t h

/-- C6 (amended): quality derivation never fails — `qualityFromRoman`
returns a quality for every suffix (unrecognized markers fall back to
minor for lower-case numerals and major for upper-case ones), so the
unsupported-quality error branch of `parseRomanNumeral` is unreachable. -/
theorem c6_quality_derivation_total :
    (∀ parts : RomanParts, (qualityFromRoman parts).isSome = true) ∧
      ∀ (input keyTonic : String) (t : KeyType),
        parseRomanNumeral input keyTonic t ≠
          ParseResult.err "Unsupported roman numeral quality." :=
  ⟨qualityFromRoman_isSome, parseRomanNumeral_no_unsupported_quality⟩

/-- C7: `resolveVoicingFrets` on a non-movable shape returns the fret list
unchanged for every target root; and on every movable shape of `VOICINGS`,
requesting the shape's own base-root pitch class (offset `12 % 12 = 0`)
returns the original frets unchanged, muted `-1` sentinels included. -/
theorem c7_resolveVoicingFrets_identity :
    (∀ (shape : VoicingShape) (targetRoot : Int),
        shape.movable = false → resolveVoicingFrets shape targetRoot = shape.frets) ∧
      ∀ shape ∈ VOICINGS, shape.movable = true →
        resolveVoicingFrets shape (BASE_ROOT_PC shape.baseRoot) = shape.frets := by
  constructor
  · intro shape targetRoot h
    simp [resolveVoicingFrets, h]
  · intro shape hs
    fin_cases hs <;> decide

/-- C7 (witness): the open C shape is returned unchanged at target root 5,
and the movable E-shape major barre at its own base root E. -/
theorem c7_resolveVoicingFrets_identity_witness :
    resolveVoicingFrets
        ⟨"open-c-maj", "Open C", ChordQuality.maj, BaseRoot.C, [-1, 3, 2, 0, 1, 0], false⟩ 5
      = [-1, 3, 2, 0, 1, 0] ∧
    resolveVoicingFrets
        ⟨"e-shape-maj", "E-shape Maj", ChordQuality.maj, BaseRoot.E, [0, 2, 2, 1, 0, 0], true⟩
        (BASE_ROOT_PC BaseRoot.E)
      = [0, 2, 2, 1, 0, 0] :=
  ⟨c7_resolveVoicingFrets_identity.1 _ 5 rfl,
   c7_resolveVoicingFrets_identity.2 _ (by decide) rfl⟩

/-- Helper: a note letter is one of the fourteen characters `[A-Ga-g]`. -/
theorem isNoteLetter_mem {c : Char} (h : isNoteLetter c = true) :
    c ∈ (['A', 'B', 'C', 'D', 'E', 'F', 'G',
          'a', 'b', 'c', 'd', 'e', 'f', 'g'] : List Char) := by
  simpa [isNoteLetter] using h

/-- Helper: the uppercased note letter is in the `LETTER_TO_PC` table. -/
theorem letterPc_isSome {c : Char} (h : isNoteLetter c = true) :
    (LETTER_TO_PC c.toUpper).isSome = true := by
  have hm := isNoteLetter_mem h
  fin_cases hm <;> decide

/-- Helper: a note letter is not whitespace. -/
theorem isNoteLetter_not_ws {c : Char} (h : isNoteLetter c = true) :
    c.isWhitespace = false := by
  have hm := isNoteLetter_mem h
  fin_cases hm <;> decide

/-- Helper: the accidental adjustment only looks at whether the character
after the letter is `#` or `b`, so replacing the tail by the captured
accidental alone does not change it. -/
theorem accDelta_accidentalOf (rest : List Char) :
    accDelta (accidentalOf rest) = accDelta rest := by
  rcases rest with _ | ⟨a, r⟩
  · rfl
  · by_cases h1 : a = '#'
    · subst h1; rfl
    · by_cases h2 : a = 'b'
      · subst h2; rfl
      · simp [accidentalOf, accDelta, h1, h2]

/-- Helper: the captured accidental contains no whitespace. -/
theorem accidentalOf_no_ws (rest : List Char) :
    (accidentalOf rest).filter (fun c => !c.isWhitespace) = accidentalOf rest := by
  rcases rest with _ | ⟨a, r⟩
  · rfl
  · by_cases h1 : a = '#'
    · subst h1; rfl
    · by_cases h2 : a = 'b'
      · subst h2; rfl
      · simp [accidentalOf, h1, h2]

/-- C10: whenever the whitespace-stripped input begins with a note letter,
`toPitchClass` succeeds, and its value is the parse of the leading
letter-plus-optional-accidental alone — trailing characters are ignored
by the unanchored regex and never cause a failure. -/
theorem c10_trailing_garbage_ignored (s : String) (c : Char) (rest : List Char)
    (h : (normalizeNoteName s).data = c :: rest)
    (hc : isNoteLetter c = true) :
    (toPitchClass s).isSome = true ∧
      toPitchClass s = toPitchClass (String.mk (c :: accidentalOf rest)) := by
  have key : toPitchClass s = parseNoteChars (c :: rest) := by
    unfold toPitchClass
    rw [h]
  have hnorm : (normalizeNoteName (String.mk (c :: accidentalOf rest))).data
      = c :: accidentalOf rest := by
    unfold normalizeNoteName
    simp only [List.filter_cons, isNoteLetter_not_ws hc, Bool.not_false, if_true,
      accidentalOf_no_ws]
  have key2 : toPitchClass (String.mk (c :: accidentalOf rest))
      = parseNoteChars (c :: accidentalOf rest) := by
    unfold toPitchClass
    rw [hnorm]
  obtain ⟨base, hbase⟩ := Option.isSome_iff_exists.mp (letterPc_isSome hc)
  constructor
  · rw [key]
    simp [parseNoteChars, hc, hbase]
  · rw [key, key2]
    simp [parseNoteChars, hc, hbase, accDelta_accidentalOf]

/-- C10 (witness): `toPitchClass("C#xyz")` succeeds and equals the parse
of `"C#"` alone (both are pitch class 1). -/
theorem c10_trailing_garbage_ignored_witness :
    (toPitchClass "C#xyz").isSome = true ∧
      toPitchClass "C#xyz" = toPitchClass (String.mk ('C' :: accidentalOf ['#', 'x', 'y', 'z'])) :=
  c10_trailing_garbage_ignored "C#xyz" 'C' ['#', 'x', 'y', 'z'] (by decide) (by decide)

end GuitarTutor
